import Mathlib

/-!
Shallow embedding of `seqpy/multiqc.py` (the SeqPy repository): a parser for
multiQC report data with per-sample metric extraction, subset aggregation
(`compile_subset`) and statistical outlier detection (`detect_outliers`).

Numbers from the JSON report are modelled as rationals.  Python dictionaries
are modelled as insertion-ordered association lists, with assignment keeping
the position of an existing key (as CPython dicts do).  Fallible code returns
`Except String`, the message naming the Python exception it models.
-/

deriving instance DecidableEq for Except

/-- Does `needle` occur at the head of `hay`?  (Models the inner step of
Python's substring test.) -/
def leadsList : List Char → List Char → Bool
  | [], _ => true
  | _ :: _, [] => false
  | c :: cs, d :: ds => c = d && leadsList cs ds

/-- Does `needle` occur anywhere in `hay`?  (Models Python `needle in hay`
for strings.) -/
def occursIn (needle : List Char) : List Char → Bool
  | [] => leadsList needle []
  | c :: t => leadsList needle (c :: t) || occursIn needle t

/-- Python's substring containment `needle in hay` on `String`. -/
def strIn (needle hay : String) : Bool :=
  occursIn needle.data hay.data

/-- Association-list lookup, first match wins (Python `d[k]` read). -/
def alookup {α β : Type} [DecidableEq α] : List (α × β) → α → Option β
  | [], _ => Option.none
  | p :: rest, k => if p.1 = k then some p.2 else alookup rest k

/-- Python dict assignment `d[k] = v`: overwrite in place keeping the key's
position, else append at the end (insertion order). -/
def dictInsert {α β : Type} [DecidableEq α] (k : α) (v : β) : List (α × β) → List (α × β)
  | [] => [(k, v)]
  | p :: rest => if p.1 = k then (p.1, v) :: rest else p :: dictInsert k v rest

/-- `defaultdict(list)` append `d[k].append(v)`: extend the list at `k` in
place, creating `[v]` at the end if `k` is absent. -/
def dictAppendAt {α : Type} [DecidableEq α] (k : α) (v : ℚ) :
    List (α × List ℚ) → List (α × List ℚ)
  | [] => [(k, [v])]
  | p :: rest => if p.1 = k then (p.1, p.2 ++ [v]) :: rest else p :: dictAppendAt k v rest

/-- A JSON scalar used as a dict key or bin label in the report: either a
string or a number.  (Non-categorical xy plots key their values by the raw
numeric index.) -/
inductive JIdx
  | str (s : String)
  | num (q : ℚ)
deriving DecidableEq

/-- Models Python `str(x)` on a bin label: strings pass through, numbers are
rendered to text. -/
def pyStr : JIdx → String
  | .str s => s
  | .num q => toString q

/-- `OneValueData`: data for a single sample from a bar graph or general
stats (source lines 22-28). -/
structure OneValueData where
  datakey : String
  units : String
  value : ℚ
deriving DecidableEq

/-- `IndexedValuesData`: data for a single sample from an XY line graph
(source lines 30-38). -/
structure IndexedValuesData where
  datakey : String
  units : String
  bins : List JIdx
  bin_units : String
  values : List (JIdx × ℚ)
deriving DecidableEq

/-- A stored per-sample metric value: one of the two dataclasses. -/
inductive MetricData
  | one (d : OneValueData)
  | indexed (d : IndexedValuesData)
deriving DecidableEq

/-- The DataStore: sample id → metric key → value, insertion ordered. -/
def DataMap : Type := List (String × List (String × MetricData))

instance : DecidableEq DataMap := by
  unfold DataMap
  infer_instance

/-- `self.data[sample][key]` as an optional lookup. -/
def lookup2 (dm : DataMap) (sample key : String) : Option MetricData :=
  match alookup dm sample with
  | some inner => alookup inner key
  | Option.none => Option.none

/-- Insertion `data_mapping[sample][key] = v` on the nested defaultdict. -/
def dictInsert2 (sample key : String) (v : MetricData) : DataMap → DataMap
  | [] => [(sample, [(key, v)])]
  | p :: rest =>
      if p.1 = sample then (p.1, dictInsert key v p.2) :: rest
      else p :: dictInsert2 sample key v rest

/-! ## Statistics helpers (`statistics.mean`, `median`, `stdev`) -/

/-- Insert into a sorted list of rationals (ascending). -/
def insertLe (x : ℚ) : List ℚ → List ℚ
  | [] => [x]
  | y :: ys => if x ≤ y then x :: y :: ys else y :: insertLe x ys

/-- Insertion sort, modelling Python `sorted`. -/
def sortQ : List ℚ → List ℚ
  | [] => []
  | x :: xs => insertLe x (sortQ xs)

/-- Arithmetic mean `sum/len`. -/
def listMean (xs : List ℚ) : ℚ := xs.sum / (xs.length : ℚ)

/-- Sample variance `Σ (x - mean)² / (n - 1)` used by `statistics.stdev`. -/
def sampleVariance (xs : List ℚ) : ℚ :=
  (xs.map (fun x => (x - listMean xs) ^ 2)).sum / ((xs.length : ℚ) - 1)

/-- Largest `k ≤ bound` with `k * k ≤ n` (structurally recursive integer
square root search, so that concrete evaluation reduces in the kernel). -/
def isqrtGo (n : ℕ) : ℕ → ℕ
  | 0 => 0
  | k + 1 => if (k + 1) * (k + 1) ≤ n then k + 1 else isqrtGo n k

/-- Integer square root: exact on perfect squares. -/
def isqrt (n : ℕ) : ℕ := isqrtGo n n

/-- Models the square root taken by `statistics.stdev`.  Exact whenever the
variance is a perfect square of a rational; like the float square root it
sends `0` to `0`. -/
def pySqrt (q : ℚ) : ℚ :=
  (isqrt q.num.toNat : ℚ) / (isqrt q.den : ℚ)

/-- `statistics.stdev`: error (`StatisticsError`) on fewer than two data
points, else the square root of the sample variance. -/
def stdevQ (xs : List ℚ) : Except String ℚ :=
  if xs.length < 2 then .error "StatisticsError: stdev requires at least two data points"
  else .ok (pySqrt (sampleVariance xs))

/-- `statistics.median`: sort; middle element for odd length, average of the
two middle elements for even length; error on empty data. -/
def medianQ (xs : List ℚ) : Except String ℚ :=
  if xs.length = 0 then .error "StatisticsError: no median for empty data"
  else if xs.length % 2 = 1 then
    match (sortQ xs).get? (xs.length / 2) with
    | some v => .ok v
    | Option.none => .error "IndexError"
  else
    match (sortQ xs).get? (xs.length / 2 - 1), (sortQ xs).get? (xs.length / 2) with
    | some a, some b => .ok ((a + b) / 2)
    | _, _ => .error "IndexError"

/-- `statistics.mean`: error on empty data, else `sum/len`. -/
def meanQ (xs : List ℚ) : Except String ℚ :=
  if xs.isEmpty then .error "StatisticsError: mean requires at least one data point"
  else .ok (listMean xs)

/-- `MultiQC.OUTLIER_COMPARISION` (source lines 42-43). -/
def OUTLIER_COMPARISION : List (String × (List ℚ → Except String ℚ)) :=
  [("median", medianQ), ("mean", meanQ)]

/-! ## The MultiQC store -/

/-- The state of a constructed `MultiQC` instance (fields in the order
`__init__` sets them, source lines 45-65). -/
structure MultiQC where
  outlier_comparision : List ℚ → Except String ℚ
  samples : List String
  file_mapping_substrings : List (String × String)
  data : DataMap
  sample_wise_data_keys : List String
  subsets : List ((String × String) × List ℚ)
  file_labels : List String

/-- Result of `compile_subset`: Python's `None` initial value, a list of
values, or a per-bin dict of value lists. -/
inductive Compiled
  | none
  | list (xs : List ℚ)
  | dict (m : List (JIdx × List ℚ))
deriving DecidableEq

/-- Python truthiness of the `compiled` accumulator: `None`, `[]` and `{}`
are falsy (`not compiled`, source line 82/89). -/
def pyFalsy : Compiled → Bool
  | .none => true
  | .list xs => xs.isEmpty
  | .dict m => m.isEmpty

/-- One iteration of the `for sample in samples_subset` loop of
`compile_subset` (source lines 76-94). -/
def compileStep (m : MultiQC) (key : String) (compiled : Compiled) (sample : String) :
    Except String Compiled :=
  match lookup2 m.data sample key with
  | Option.none => .error ("KeyError: " ++ sample ++ "/" ++ key)
  | some (.one d) =>
      let compiled := if pyFalsy compiled then Compiled.list [] else compiled
      match compiled with
      | .list xs => .ok (.list (xs ++ [d.value]))
      | _ => .error "AttributeError: dict object has no attribute append"
  | some (.indexed d) =>
      let compiled := if pyFalsy compiled then Compiled.dict [] else compiled
      match compiled with
      | .dict mm => .ok (.dict (d.values.foldl (fun acc p => dictAppendAt p.1 p.2 acc) mm))
      | _ => .error "TypeError: list indices must be integers"

/-- The whole `for sample in samples_subset` loop. -/
def compileGo (m : MultiQC) (key : String) : List String → Compiled → Except String Compiled
  | [], c => .ok c
  | s :: rest, c =>
      match compileStep m key c s with
      | .error e => .error e
      | .ok c' => compileGo m key rest c'

/-- `MultiQC.compile_subset` (source lines 67-99): assert the subset is a
true subset of the configured samples, assert the key was discovered, then
aggregate sample by sample.  The final `defaultdict` → `dict` lock is a
no-op in this model. -/
def compile_subset (m : MultiQC) (samples_subset : List String) (key : String) :
    Except String Compiled :=
  if ¬ (∀ s ∈ samples_subset, s ∈ m.samples) then
    .error "AssertionError: Samples supplied are not a subset"
  else if ¬ key ∈ m.sample_wise_data_keys then
    .error ("AssertionError: Missing key " ++ key)
  else compileGo m key samples_subset Compiled.none

/-! ## Outlier detection -/

/-- The scoring loop `for i, value in enumerate(values)` shared by both
branches of `detect_outliers` (source lines 114-117 and 133-136): report
`labelOf subset_samples[i]` whenever `|value - median| / stdev > deviation`
(strict), `IndexError` when `i` falls outside `subset_samples`. -/
def scanScores (subset_samples : List String) (labelOf : String → String)
    (med sd deviation : ℚ) : List (ℕ × ℚ) → Except String (List (String × ℚ))
  | [] => .ok []
  | (i, value) :: rest =>
      if deviation < |value - med| / sd then
        match subset_samples.get? i with
        | Option.none => .error "IndexError: list index out of range"
        | some sample =>
            match scanScores subset_samples labelOf med sd deviation rest with
            | .error e => .error e
            | .ok tail => .ok ((labelOf sample, |value - med| / sd) :: tail)
      else scanScores subset_samples labelOf med sd deviation rest

/-- Median/stdev/threshold scoring of one flat sequence: compute stdev and
median, short-circuit to no outliers on zero stdev, else scan. -/
def scoreSlice (subset_samples : List String) (labelOf : String → String)
    (deviation : ℚ) (values : List ℚ) : Except String (List (String × ℚ)) :=
  match stdevQ values with
  | .error e => .error e
  | .ok sd =>
      match medianQ values with
      | .error e => .error e
      | .ok med =>
          if sd = 0 then .ok []
          else scanScores subset_samples labelOf med sd deviation values.enum

/-- `detect_outliers`, flat-list branch (source lines 108-117). -/
def scoreFlat (subset_samples : List String) (deviation : ℚ) (values : List ℚ) :
    Except String (List (String × ℚ)) :=
  scoreSlice subset_samples (fun l => l) deviation values

/-- Zero padding of a bin's collected sequence (source lines 125-127):
`implicit_zeroes = len(subset_samples) - len(values)`, and when it is
nonzero the list is extended by `[0] * implicit_zeroes` (a no-op extend
when the difference is negative). -/
def padValues (n : ℕ) (vs : List ℚ) : List ℚ :=
  let implicit_zeroes : ℤ := (n : ℤ) - (vs.length : ℤ)
  if implicit_zeroes ≠ 0 then vs ++ List.replicate implicit_zeroes.toNat 0 else vs

/-- `detect_outliers`, per-bin dict branch (source lines 119-136): pad each
bin to the subset length, skip zero-stdev bins (`continue`), otherwise score
the bin with labels `"{sample}:{index}"`, accumulating across bins. -/
def detectBins (subset_samples : List String) (deviation : ℚ) :
    List (JIdx × List ℚ) → Except String (List (String × ℚ))
  | [] => .ok []
  | (index, vs) :: rest =>
      match stdevQ (padValues subset_samples.length vs) with
      | .error e => .error e
      | .ok sd =>
          match medianQ (padValues subset_samples.length vs) with
          | .error e => .error e
          | .ok med =>
              if sd = 0 then detectBins subset_samples deviation rest
              else
                match scanScores subset_samples (fun l => l ++ ":" ++ pyStr index)
                    med sd deviation (padValues subset_samples.length vs).enum with
                | .error e => .error e
                | .ok this =>
                    match detectBins subset_samples deviation rest with
                    | .error e => .error e
                    | .ok restOut => .ok (this ++ restOut)

/-- `MultiQC.detect_outliers` (source lines 101-144).  An empty (or absent)
`subset_samples` falls back to all configured samples; the compiled value is
dispatched on its runtime shape, `None` hitting the final
`ValueError("Unknown type for outlier detection")` branch. -/
def detect_outliers (m : MultiQC) (key : String) (deviation : ℚ)
    (subset_samples : List String) : Except String (List (String × ℚ)) :=
  let subset := if subset_samples.isEmpty then m.samples else subset_samples
  match compile_subset m subset key with
  | .error e => .error e
  | .ok (.list values) => scoreFlat subset deviation values
  | .ok (.dict values) => detectBins subset deviation values
  | .ok .none => .error "ValueError: Unknown type for outlier detection"

/-! ## Raw report model and extraction -/

/-- One point of an xy dataset entry's `data` list: categorical plots carry
plain numbers, non-categorical plots carry `[index, value]` pairs. -/
inductive XYPoint
  | val (v : ℚ)
  | pair (idx : JIdx) (v : ℚ)
deriving DecidableEq

/-- One line of an xy plot: `{"name": file_name, "data": [...]}`. -/
structure XYEntry where
  name : String
  data : List XYPoint
deriving DecidableEq

/-- The parts of an xy plot's `config` the extractor reads. -/
structure XYConfig where
  ylab : String
  xlab : String
  categories : Option (List JIdx)
  data_labels : List String
deriving DecidableEq

/-- One entry of a bar graph's dataset: `{"name": ..., "data": [...]}`. -/
structure BarDataset where
  name : String
  data : List ℚ
deriving DecidableEq

/-- A plot descriptor, tagged by its `plot_type`. -/
inductive PlotData
  | bar_graph (samples : List (List String)) (datasets : List (List BarDataset)) (ylab : String)
  | xy_line (datasets : List (List XYEntry)) (config : XYConfig)
  | other (plot_type : String)
deriving DecidableEq

/-- The raw multiQC JSON document: the two top-level sections the extractor
reads. -/
structure RawReport where
  report_general_stats_data : List (List (String × List (String × ℚ)))
  report_plot_data : List (String × PlotData)
deriving DecidableEq

/-- `MultiQC._label_file` loop state: Python's `matched` starts as `False`
and becomes the matched label string; `not matched` is also true for an
empty-string label. -/
def labelFalsy : Option String → Bool
  | Option.none => true
  | some s => s.isEmpty

/-- The `for substring, filelabel in ...` loop of `_label_file`
(source lines 151-157). -/
def labelFileGo (filename : String) : List (String × String) → Option String →
    Except String (Option String)
  | [], matched => .ok matched
  | (substring, filelabel) :: rest, matched =>
      if strIn substring filename then
        if labelFalsy matched then labelFileGo filename rest (some filelabel)
        else .error ("ValueError: File name " ++ filename ++ " matched multiple substrings")
      else labelFileGo filename rest matched

/-- `MultiQC._label_file` (source lines 146-162): exactly one configured
substring must occur in the filename; zero or multiple matches raise
`ValueError`. -/
def label_file (fm : List (String × String)) (filename : String) : Except String String :=
  match labelFileGo filename fm Option.none with
  | .error e => .error e
  | .ok (some l) =>
      if l.isEmpty then
        .error ("ValueError: File name " ++ filename ++ " did not match any substrings")
      else .ok l
  | .ok Option.none =>
      .error ("ValueError: File name " ++ filename ++ " did not match any substrings")

/-- Processing of one general-stats file entry (source lines 173-182):
`cur_sample = [sample for sample in samples if sample in file_name][0]`
(an `IndexError` when no configured sample id occurs in the file name, the
first match chosen otherwise), then one `OneValueData` per field. -/
def extractGSentry (fm : List (String × String)) (samples : List String)
    (file_name : String) (fields : List (String × ℚ)) (dm : DataMap) :
    Except String DataMap :=
  match samples.filter (fun s => strIn s file_name) with
  | [] => .error "IndexError: list index out of range"
  | cur_sample :: _ =>
      match label_file fm file_name with
      | .error e => .error e
      | .ok filelabel =>
          .ok (fields.foldl
            (fun dm kv =>
              dictInsert2 cur_sample (filelabel ++ "-" ++ kv.1)
                (MetricData.one ⟨filelabel ++ "-" ++ kv.1, kv.1, kv.2⟩) dm)
            dm)

/-- The `for file_name, data in file_data.items()` loop. -/
def extractGSfile (fm : List (String × String)) (samples : List String) :
    List (String × List (String × ℚ)) → DataMap → Except String DataMap
  | [], dm => .ok dm
  | (file_name, fields) :: rest, dm =>
      match extractGSentry fm samples file_name fields dm with
      | .error e => .error e
      | .ok dm' => extractGSfile fm samples rest dm'

/-- The `for file_data in raw_data["report_general_stats_data"]` loop
(source lines 172-182). -/
def extractGS (fm : List (String × String)) (samples : List String) :
    List (List (String × List (String × ℚ))) → DataMap → Except String DataMap
  | [], dm => .ok dm
  | fd :: rest, dm =>
      match extractGSfile fm samples fd dm with
      | .error e => .error e
      | .ok dm' => extractGS fm samples rest dm'

/-- The positional file-to-sample mapping of `_extract_from_bar_graph`
(source lines 206-215): each multiQC sample name must contain exactly one
configured sample id. -/
def barMapSamples (fm : List (String × String)) (samples : List String) :
    List String → Except String (List (String × String))
  | [] => .ok []
  | mqc_sample :: rest =>
      match samples.filter (fun s => strIn s mqc_sample) with
      | [sample] =>
          match label_file fm mqc_sample with
          | .error e => .error e
          | .ok lbl =>
              match barMapSamples fm samples rest with
              | .error e => .error e
              | .ok restM => .ok ((sample, lbl) :: restM)
      | _ => .error "AssertionError: only one sample should map"

/-- The `for i, value in enumerate(values)` loop of the bar-graph extractor
(source lines 224-228). -/
def barInsertValues (mapping : List (String × String)) (plot_name nm ylab : String) :
    List (ℕ × ℚ) → DataMap → Except String DataMap
  | [], dm => .ok dm
  | (i, value) :: rest, dm =>
      match mapping.get? i with
      | Option.none => .error "KeyError: bar graph sample index"
      | some sf =>
          let key := sf.2 ++ "-" ++ plot_name ++ "-" ++ nm
          barInsertValues mapping plot_name nm ylab rest
            (dictInsert2 sf.1 key (MetricData.one ⟨key, ylab, value⟩) dm)

/-- The `for sub_data in data["datasets"][0]` loop (source lines 221-228). -/
def barDatasets (mapping : List (String × String)) (plot_name ylab : String) :
    List BarDataset → DataMap → Except String DataMap
  | [], dm => .ok dm
  | sd :: rest, dm =>
      match barInsertValues mapping plot_name sd.name ylab sd.data.enum dm with
      | .error e => .error e
      | .ok dm' => barDatasets mapping plot_name ylab rest dm'

/-- `MultiQC._extract_from_bar_graph` (source lines 203-229): exactly one
group of sample names and exactly one dataset group. -/
def extract_from_bar_graph (fm : List (String × String)) (samples : List String)
    (bsamples : List (List String)) (bdatasets : List (List BarDataset))
    (ylab plot_name : String) (dm : DataMap) : Except String DataMap :=
  match bsamples with
  | [group] =>
      match barMapSamples fm samples group with
      | .error e => .error e
      | .ok mapping =>
          match bdatasets with
          | [ds] => barDatasets mapping plot_name ylab ds dm
          | _ => .error "AssertionError: len datasets should be 1"
  | _ => .error "AssertionError: len samples should be 1"

/-- Python `float(value)` on an xy data point: a plain number converts, an
`[index, value]` pair raises `TypeError`. -/
def floatOf : XYPoint → Except String ℚ
  | .val v => .ok v
  | .pair _ _ => .error "TypeError: float() argument must be a number"

/-- Tuple unpacking `bin, value = point` on an xy data point: a plain number
cannot be unpacked (`TypeError`). -/
def unpackPair : XYPoint → Except String (JIdx × ℚ)
  | .val _ => .error "TypeError: cannot unpack non-sequence float"
  | .pair i v => .ok (i, v)

/-- The populate loop `for j, value in values` for a categorical plot: each
raw point is converted with `float(value)` and keyed by its zipped bin. -/
def catPairs : List (JIdx × XYPoint) → Except String (List (JIdx × ℚ))
  | [] => .ok []
  | p :: rest =>
      match floatOf p.2 with
      | .error e => .error e
      | .ok v =>
          match catPairs rest with
          | .error e => .error e
          | .ok restP => .ok ((p.1, v) :: restP)

/-- Unpack every `[index, value]` pair of a non-categorical entry
(`these_bins = [bin for bin, value in values]` and the populate loop). -/
def pairList : List XYPoint → Except String (List (JIdx × ℚ))
  | [] => .ok []
  | p :: rest =>
      match unpackPair p with
      | .error e => .error e
      | .ok iv =>
          match pairList rest with
          | .error e => .error e
          | .ok restP => .ok (iv :: restP)

/-- One `dataset_entry` of an xy plot (source lines 259-289): match exactly
one sample, resolve the file label, build the `IndexedValuesData` and fill
its `values` dict (categorical: `zip(bins, values)` with stringified bins;
non-categorical: the raw `[index, value]` pairs, the raw index being the
bin label and dict key). -/
def extractXYEntry (fm : List (String × String)) (samples : List String)
    (plot_name data_label ylab xlab : String) (catBins : Option (List JIdx))
    (entry : XYEntry) (dm : DataMap) : Except String DataMap :=
  match samples.filter (fun s => strIn s entry.name) with
  | [sample] =>
      match label_file fm entry.name with
      | .error e => .error e
      | .ok sample_file =>
          match catBins with
          | some bins =>
              match catPairs (bins.zip entry.data) with
              | .error e => .error e
              | .ok valuePairs =>
                  .ok (dictInsert2 sample (sample_file ++ "-" ++ plot_name ++ data_label)
                    (MetricData.indexed ⟨sample_file ++ "-" ++ plot_name ++ data_label,
                      ylab, bins, xlab,
                      valuePairs.foldl (fun acc p => dictInsert p.1 p.2 acc) []⟩) dm)
          | Option.none =>
              match pairList entry.data with
              | .error e => .error e
              | .ok pts =>
                  .ok (dictInsert2 sample (sample_file ++ "-" ++ plot_name ++ data_label)
                    (MetricData.indexed ⟨sample_file ++ "-" ++ plot_name ++ data_label,
                      ylab, pts.map (fun p => p.1), xlab,
                      pts.foldl (fun acc p => dictInsert p.1 p.2 acc) []⟩) dm)
  | _ => .error "AssertionError: only one sample should map"

/-- The `for dataset_entry in dataset` loop. -/
def extractXYDataset (fm : List (String × String)) (samples : List String)
    (plot_name data_label ylab xlab : String) (catBins : Option (List JIdx)) :
    List XYEntry → DataMap → Except String DataMap
  | [], dm => .ok dm
  | e :: rest, dm =>
      match extractXYEntry fm samples plot_name data_label ylab xlab catBins e dm with
      | .error e => .error e
      | .ok dm' => extractXYDataset fm samples plot_name data_label ylab xlab catBins rest dm'

/-- The `for i, dataset in enumerate(data["datasets"])` loop (source lines
252-289): with multiple value types the dataset's `data_labels[i]` name is
appended to the key (an `IndexError` if absent). -/
def extractXYGo (fm : List (String × String)) (samples : List String)
    (plot_name : String) (cfg : XYConfig) (multiple : Bool)
    (catBins : Option (List JIdx)) :
    ℕ → List (List XYEntry) → DataMap → Except String DataMap
  | _, [], dm => .ok dm
  | i, ds :: rest, dm =>
      match
        (if multiple then
          match cfg.data_labels.get? i with
          | some n => Except.ok ("-" ++ n)
          | Option.none => Except.error "IndexError: data_labels"
        else Except.ok "") with
      | .error e => .error e
      | .ok data_label =>
          match extractXYDataset fm samples plot_name data_label cfg.ylab cfg.xlab catBins ds dm with
          | .error e => .error e
          | .ok dm' => extractXYGo fm samples plot_name cfg multiple catBins (i + 1) rest dm'

/-- `MultiQC._extract_from_xy_line_graph` (source lines 231-290):
`multiple_value_types` when there is more than one dataset group; when the
config declares `categories` the bins are their stringified forms, else
there are no precomputed bins. -/
def extract_from_xy_line_graph (fm : List (String × String)) (samples : List String)
    (dsets : List (List XYEntry)) (cfg : XYConfig) (plot_name : String)
    (dm : DataMap) : Except String DataMap :=
  let multiple : Bool := decide (1 < dsets.length)
  let catBins : Option (List JIdx) :=
    cfg.categories.map (fun cats => cats.map (fun c => JIdx.str (pyStr c)))
  extractXYGo fm samples plot_name cfg multiple catBins 0 dsets dm

/-- The `for plot_name, data in raw_data["report_plot_data"].items()` loop
(source lines 187-195), dispatching on `plot_type` and failing on unknown
types. -/
def extractPlots (fm : List (String × String)) (samples : List String) :
    List (String × PlotData) → DataMap → Except String DataMap
  | [], dm => .ok dm
  | (plot_name, pd) :: rest, dm =>
      match
        (match pd with
        | .bar_graph bs bd ylab => extract_from_bar_graph fm samples bs bd ylab plot_name dm
        | .xy_line ds cfg => extract_from_xy_line_graph fm samples ds cfg plot_name dm
        | .other t => .error ("ValueError: Unknown plot type " ++ t)) with
      | .error e => .error e
      | .ok dm' => extractPlots fm samples rest dm'

/-- The final lock `data_mapping[sample] = dict(data_mapping[sample])`
(source lines 198-200): a `KeyError` when a configured sample collected no
data at all, the mapping itself unchanged. -/
def finalizeMapping (samples : List String) (dm : DataMap) : Except String DataMap :=
  if ∀ s ∈ samples, (alookup dm s).isSome then .ok dm else .error "KeyError: sample has no data"

/-- `MultiQC._extract_multiQC_data` (source lines 166-201). -/
def extract_multiQC_data (raw : RawReport) (samples : List String)
    (fm : List (String × String)) : Except String DataMap :=
  match extractGS fm samples raw.report_general_stats_data [] with
  | .error e => .error e
  | .ok dm =>
      match extractPlots fm samples raw.report_plot_data dm with
      | .error e => .error e
      | .ok dm' => finalizeMapping samples dm'

/-- `MultiQC.__init__` (source lines 45-65): resolve the outlier comparison
function (`ValueError` for an unknown option), extract the DataStore, and
capture the ordered key list from the first sample. -/
def mkMultiQC (raw : RawReport) (samples : List String)
    (fm : List (String × String)) (outlier_comparision_point : String) :
    Except String MultiQC :=
  match alookup OUTLIER_COMPARISION outlier_comparision_point with
  | Option.none => .error "ValueError: Outlier comparision point not defined."
  | some comp =>
      match extract_multiQC_data raw samples fm with
      | .error e => .error e
      | .ok data =>
          match samples.head? with
          | Option.none => .error "IndexError: samples list is empty"
          | some s0 =>
              match alookup data s0 with
              | Option.none => .error "KeyError: first sample"
              | some inner =>
                  .ok ⟨comp, samples, fm, data, inner.map (fun p => p.1),
                       [], fm.map (fun p => p.2)⟩

/-! ## Concrete fixtures used by witnesses and counterexamples -/

/-- A small substring-to-label mapping used by the concrete fixtures. -/
def fmW : List (String × String) := [("R1", "forward")]

/-- Four configured samples. -/
def samplesW : List String := ["A", "B", "C", "D"]

/-- A general-stats-only report: one scalar field `f` per sample, values
`0, 0, 6, 0` (sample variance `9`, stdev `3`, median `0`). -/
def rawW : RawReport :=
  { report_general_stats_data :=
      [[("A-R1", [("f", 0)])], [("B-R1", [("f", 0)])],
       [("C-R1", [("f", 6)])], [("D-R1", [("f", 0)])]],
    report_plot_data := [] }

/-- The store `mkMultiQC rawW samplesW fmW "median"` constructs. -/
def mW : MultiQC :=
  { outlier_comparision := medianQ,
    samples := samplesW,
    file_mapping_substrings := fmW,
    data := [("A", [("forward-f", MetricData.one ⟨"forward-f", "f", 0⟩)]),
             ("B", [("forward-f", MetricData.one ⟨"forward-f", "f", 0⟩)]),
             ("C", [("forward-f", MetricData.one ⟨"forward-f", "f", 6⟩)]),
             ("D", [("forward-f", MetricData.one ⟨"forward-f", "f", 0⟩)])],
    sample_wise_data_keys := ["forward-f"],
    subsets := [],
    file_labels := ["forward"] }

/-- A two-sample flat report whose metric is constant (`5, 5`): zero sample
standard deviation. -/
def rawZ : RawReport :=
  { report_general_stats_data := [[("A-R1", [("f", 5)])], [("B-R1", [("f", 5)])]],
    report_plot_data := [] }

/-- The store `mkMultiQC rawZ ["A", "B"] fmW "median"` constructs. -/
def mZ : MultiQC :=
  { outlier_comparision := medianQ,
    samples := ["A", "B"],
    file_mapping_substrings := fmW,
    data := [("A", [("forward-f", MetricData.one ⟨"forward-f", "f", 5⟩)]),
             ("B", [("forward-f", MetricData.one ⟨"forward-f", "f", 5⟩)])],
    sample_wise_data_keys := ["forward-f"],
    subsets := [],
    file_labels := ["forward"] }

/-- General-stats report in which the file name `AB-R1` contains BOTH
configured sample ids `AB` and `A`. -/
def rawMulti : RawReport :=
  { report_general_stats_data := [[("AB-R1", [("f", 1)])], [("A-R1", [("f", 2)])]],
    report_plot_data := [] }

/-- General-stats report whose file name `Z-R1` contains no configured
sample id (for samples `["A"]`). -/
def rawNoMatch : RawReport :=
  { report_general_stats_data := [[("Z-R1", [("f", 1)])]],
    report_plot_data := [] }

/-- Report giving sample `A` one general-stats field and sample `B` two:
the constructed store has a non-uniform schema. -/
def rawSkew : RawReport :=
  { report_general_stats_data := [[("A-R1", [("f", 1)])], [("B-R1", [("f", 1), ("g", 2)])]],
    report_plot_data := [] }

/-- An xy-line plot without categories whose single entry carries the
`[index, value]` pair `[40.0, 4071.0]` for sample `A`. -/
def rawXYNum : RawReport :=
  { report_general_stats_data := [],
    report_plot_data :=
      [("p", PlotData.xy_line [[⟨"A-R1", [XYPoint.pair (JIdx.num 40) 4071]⟩]]
        ⟨"Count", "Phred", Option.none, []⟩)] }

/-- An xy-line plot with categorical bins `["b1", "b2"]` and plain values. -/
def rawXYCat : RawReport :=
  { report_general_stats_data := [],
    report_plot_data :=
      [("p", PlotData.xy_line [[⟨"A-R1", [XYPoint.val 3, XYPoint.val 7]⟩]]
        ⟨"Count", "Phred", some [JIdx.str "b1", JIdx.str "b2"], []⟩)] }

/-! ## Construction lemmas for the fixtures -/

theorem mkW_ok : mkMultiQC rawW samplesW fmW "median" = Except.ok mW := by rfl

theorem mkZ_ok : mkMultiQC rawZ ["A", "B"] fmW "median" = Except.ok mZ := by rfl

/-! ## C10: empty subset falls back to all configured samples -/

/-- C10: for every metric key and threshold, calling `detect_outliers` with
an empty sample subset behaves exactly as if the subset were the full
configured sample list. -/
theorem detect_outliers_empty_subset (m : MultiQC) (key : String) (d : ℚ) :
    detect_outliers m key d [] = detect_outliers m key d m.samples := by
  unfold detect_outliers
  cases h : m.samples.isEmpty <;> simp [h]

/-! ## C7: compile_subset validates its inputs first -/

/-- C7: `compile_subset` rejects a subset that is not contained in the
configured sample list, and (for a true subset) a metric key missing from
the discovered key list, each with the corresponding assertion failure and
before any aggregation. -/
theorem compile_subset_rejects (m : MultiQC) (ss : List String) (key : String) :
    (¬ (∀ s ∈ ss, s ∈ m.samples) →
      compile_subset m ss key = .error "AssertionError: Samples supplied are not a subset") ∧
    ((∀ s ∈ ss, s ∈ m.samples) → key ∉ m.sample_wise_data_keys →
      compile_subset m ss key = .error ("AssertionError: Missing key " ++ key)) := by
  constructor
  · intro h
    unfold compile_subset
    rw [if_pos h]
  · intro h hk
    unfold compile_subset
    rw [if_neg (not_not.mpr h), if_pos hk]

/-- Witness for C7 on the concrete store `mW`: `"Z"` is not a configured
sample and `"nokey"` is not a discovered key. -/
theorem compile_subset_rejects_witness :
    compile_subset mW ["Z"] "forward-f" =
      .error "AssertionError: Samples supplied are not a subset" ∧
    compile_subset mW ["A"] "nokey" = .error ("AssertionError: Missing key " ++ "nokey") :=
  ⟨(compile_subset_rejects mW ["Z"] "forward-f").1 (by decide),
   (compile_subset_rejects mW ["A"] "nokey").2 (by decide) (by decide)⟩

/-! ## C1: compile_subset on scalar metrics -/

/-- The scalar value stored for `sample` under `key`, when the stored datum
is a `OneValueData`. -/
def storedScalar (m : MultiQC) (key sample : String) : Option ℚ :=
  match lookup2 m.data sample key with
  | some (.one d) => some d.value
  | _ => Option.none

theorem compileStep_list (m : MultiQC) (key : String) (xs : List ℚ) (s : String)
    (d : OneValueData) (h : lookup2 m.data s key = some (.one d)) :
    compileStep m key (.list xs) s = .ok (.list (xs ++ [d.value])) := by
  unfold compileStep
  rw [h]
  cases xs <;> rfl

theorem compileGo_list (m : MultiQC) (key : String) (ss : List String)
    (hvals : ∀ s ∈ ss, ∃ d, lookup2 m.data s key = some (MetricData.one d)) (xs : List ℚ) :
    ∃ ys : List ℚ, compileGo m key ss (.list xs) = .ok (.list (xs ++ ys)) ∧
      ys.length = ss.length ∧
      ∀ i, ys.get? i = (ss.get? i).bind (storedScalar m key) := by
  induction ss generalizing xs with
  | nil => exact ⟨[], by simp [compileGo], rfl, fun i => by simp⟩
  | cons s rest ih =>
      obtain ⟨d, hd⟩ := hvals s (List.mem_cons_self _ _)
      obtain ⟨ys, hgo, hlen, hget⟩ :=
        ih (fun t ht => hvals t (List.mem_cons_of_mem _ ht)) (xs ++ [d.value])
      refine ⟨d.value :: ys, ?_, by simp [hlen], ?_⟩
      · simp only [compileGo, compileStep_list m key xs s d hd, hgo]
        simp
      · intro i
        cases i with
        | zero => simp [storedScalar, hd]
        | succ n => simpa using hget n

/-- C1 (amended): on a nonempty subset of the configured samples and a
discovered key whose per-sample values are all `OneValueData`,
`compile_subset` returns a list whose length is the subset's length and
whose i-th element is the stored value of the i-th subset sample. -/
theorem compile_subset_scalar (m : MultiQC) (ss : List String) (key : String)
    (hne : ss ≠ [])
    (hsub : ∀ s ∈ ss, s ∈ m.samples)
    (hkey : key ∈ m.sample_wise_data_keys)
    (hvals : ∀ s ∈ ss, ∃ d, lookup2 m.data s key = some (MetricData.one d)) :
    ∃ ys : List ℚ, compile_subset m ss key = .ok (.list ys) ∧
      ys.length = ss.length ∧
      ∀ i, ys.get? i = (ss.get? i).bind (storedScalar m key) := by
  unfold compile_subset
  rw [if_neg (not_not.mpr hsub), if_neg (not_not.mpr hkey)]
  cases ss with
  | nil => exact absurd rfl hne
  | cons s rest =>
      obtain ⟨d, hd⟩ := hvals s (List.mem_cons_self _ _)
      have h1 : compileStep m key Compiled.none s = .ok (.list [d.value]) := by
        unfold compileStep
        rw [hd]
        rfl
      obtain ⟨ys, hgo, hlen, hget⟩ :=
        compileGo_list m key rest (fun t ht => hvals t (List.mem_cons_of_mem _ ht)) [d.value]
      refine ⟨d.value :: ys, ?_, by simp [hlen], ?_⟩
      · simp only [compileGo, h1, hgo]
        simp
      · intro i
        cases i with
        | zero => simp [storedScalar, hd]
        | succ n => simpa using hget n

/-- Witness for C1's amended theorem on the concrete store `mW` with the
full four-sample subset. -/
theorem compile_subset_scalar_witness :
    ∃ ys : List ℚ, compile_subset mW samplesW "forward-f" = .ok (.list ys) ∧
      ys.length = samplesW.length ∧
      ∀ i, ys.get? i = (samplesW.get? i).bind (storedScalar mW "forward-f") :=
  compile_subset_scalar mW samplesW "forward-f" (by decide) (by decide) (by decide)
    (fun s hs => by
      fin_cases hs <;> exact ⟨_, rfl⟩)

/-- C1 counterexample: the empty list is a subset of the configured samples,
yet `compile_subset` on it returns Python's `None`, not a sequence of
length `0`. -/
theorem compile_subset_empty_counterexample :
    mkMultiQC rawW samplesW fmW "median" = Except.ok mW ∧
    compile_subset mW [] "forward-f" = .ok Compiled.none ∧
    ∀ ys : List ℚ, compile_subset mW [] "forward-f" ≠ .ok (.list ys) := by
  refine ⟨mkW_ok, rfl, fun ys h => ?_⟩
  rw [(rfl : compile_subset mW [] "forward-f" = .ok Compiled.none)] at h
  exact Compiled.noConfusion (Except.ok.inj h)

/-! ## Statistics lemmas -/

theorem insertLe_length (x : ℚ) (l : List ℚ) : (insertLe x l).length = l.length + 1 := by
  induction l with
  | nil => rfl
  | cons y ys ih =>
      unfold insertLe
      split
      · rfl
      · simp [ih]

theorem sortQ_length (l : List ℚ) : (sortQ l).length = l.length := by
  induction l with
  | nil => rfl
  | cons x xs ih => simp [sortQ, insertLe_length, ih]

/-- `statistics.median` succeeds on nonempty data. -/
theorem medianQ_ok (xs : List ℚ) (h : xs ≠ []) : ∃ v, medianQ xs = .ok v := by
  have hn : 0 < xs.length := List.length_pos.mpr h
  unfold medianQ
  rw [if_neg (by omega)]
  by_cases hodd : xs.length % 2 = 1
  · rw [if_pos hodd]
    have hlt : xs.length / 2 < (sortQ xs).length := by
      rw [sortQ_length]
      exact Nat.div_lt_self hn one_lt_two
    rw [List.get?_eq_get hlt]
    exact ⟨_, rfl⟩
  · rw [if_neg hodd]
    have hlt1 : xs.length / 2 - 1 < (sortQ xs).length := by
      rw [sortQ_length]
      omega
    have hlt2 : xs.length / 2 < (sortQ xs).length := by
      rw [sortQ_length]
      exact Nat.div_lt_self hn one_lt_two
    rw [List.get?_eq_get hlt1, List.get?_eq_get hlt2]
    exact ⟨_, rfl⟩

/-- A successful `statistics.stdev` had at least two data points. -/
theorem stdevQ_ok_length (xs : List ℚ) (sd : ℚ) (h : stdevQ xs = .ok sd) :
    2 ≤ xs.length := by
  unfold stdevQ at h
  by_cases h2 : xs.length < 2
  · rw [if_pos h2] at h
    exact absurd h (by simp)
  · omega


/-- Unfolding equation for `detectBins` on a nonempty bin list. -/
theorem detectBins_cons (subset : List String) (d : ℚ) (idx : JIdx) (vs : List ℚ)
    (rest : List (JIdx × List ℚ)) :
    detectBins subset d ((idx, vs) :: rest) =
      match stdevQ (padValues subset.length vs) with
      | .error e => .error e
      | .ok sd =>
          match medianQ (padValues subset.length vs) with
          | .error e => .error e
          | .ok med =>
              if sd = 0 then detectBins subset d rest
              else
                match scanScores subset (fun l => l ++ ":" ++ pyStr idx)
                    med sd d (padValues subset.length vs).enum with
                | .error e => .error e
                | .ok this =>
                    match detectBins subset d rest with
                    | .error e => .error e
                    | .ok restOut => .ok (this ++ restOut) := rfl

/-! ## C4: zero standard deviation yields an empty result, no exception -/

/-- C4: when the computed standard deviation of a slice is exactly zero,
`detect_outliers` short-circuits without an exception: a flat sequence
yields the empty outlier list, and a per-bin aggregate simply skips the
zero-deviation bin (`continue`). -/
theorem detect_outliers_zero_stdev (m : MultiQC) (key : String) (d : ℚ) (ss : List String) :
    (∀ vs : List ℚ,
      compile_subset m (if ss.isEmpty then m.samples else ss) key = .ok (.list vs) →
      stdevQ vs = .ok 0 →
      detect_outliers m key d ss = .ok []) ∧
    (∀ (subset : List String) (idx : JIdx) (vs : List ℚ)
        (rest : List (JIdx × List ℚ)),
      stdevQ (padValues subset.length vs) = .ok 0 →
      detectBins subset d ((idx, vs) :: rest) = detectBins subset d rest) := by
  constructor
  · intro vs hc h0
    have hlen : 2 ≤ vs.length := stdevQ_ok_length vs 0 h0
    obtain ⟨med, hmed⟩ := medianQ_ok vs (by intro h; rw [h] at hlen; simp at hlen)
    simp only [detect_outliers]
    rw [hc]
    show scoreFlat (if ss.isEmpty then m.samples else ss) d vs = Except.ok []
    unfold scoreFlat scoreSlice
    simp only [h0, hmed]
    simp
  · intro subset idx vs rest h0
    have hlen : 2 ≤ (padValues subset.length vs).length := stdevQ_ok_length _ 0 h0
    obtain ⟨med, hmed⟩ :=
      medianQ_ok (padValues subset.length vs) (by intro h; rw [h] at hlen; simp at hlen)
    rw [detectBins_cons]
    simp only [h0, hmed]
    simp

/-- Witness for C4 on concrete flat data `[5, 5]` (stdev `0`) and a concrete
zero-deviation bin. -/
theorem detect_outliers_zero_stdev_witness :
    detect_outliers mZ "forward-f" 1 [] = .ok [] ∧
    detectBins ["A", "B"] 1 [(JIdx.str "b", [5, 5]), (JIdx.str "c", [1, 9])] =
      detectBins ["A", "B"] 1 [(JIdx.str "c", [1, 9])] :=
  ⟨(detect_outliers_zero_stdev mZ "forward-f" 1 []).1 [5, 5] rfl
      (by norm_num [stdevQ, sampleVariance, listMean, pySqrt, isqrt, isqrtGo,
        Rat.num_ofNat, Rat.den_ofNat]),
   (detect_outliers_zero_stdev mZ "forward-f" 1 []).2 ["A", "B"] (JIdx.str "b")
     [5, 5] [(JIdx.str "c", [1, 9])]
     (by norm_num [padValues, stdevQ, sampleVariance, listMean, pySqrt, isqrt, isqrtGo,
        Rat.num_ofNat, Rat.den_ofNat])⟩

/-! ## C5: short bins are right-padded with zeros before scoring -/

/-- C5: the padding applied to each bin of a per-bin aggregate is exactly a
right-padding with literal zeros up to the subset length (reaching that
length whenever the bin was shorter), and the bin's contribution to
`detect_outliers` is the median/stdev/threshold scoring of the padded
sequence. -/
theorem detectBins_pads_with_zeros (d : ℚ) :
    (∀ (n : ℕ) (vs : List ℚ),
      padValues n vs = vs ++ List.replicate (n - vs.length) 0) ∧
    (∀ (n : ℕ) (vs : List ℚ), vs.length ≤ n → (padValues n vs).length = n) ∧
    (∀ (subset : List String) (idx : JIdx) (vs : List ℚ)
        (rest : List (JIdx × List ℚ)),
      detectBins subset d ((idx, vs) :: rest) =
        match scoreSlice subset (fun l => l ++ ":" ++ pyStr idx) d
            (padValues subset.length vs) with
        | .error e => .error e
        | .ok this =>
            match detectBins subset d rest with
            | .error e => .error e
            | .ok restOut => .ok (this ++ restOut)) := by
  have hpad : ∀ (n : ℕ) (vs : List ℚ),
      padValues n vs = vs ++ List.replicate (n - vs.length) 0 := by
    intro n vs
    unfold padValues
    by_cases h : ((n : ℤ) - (vs.length : ℤ)) = 0
    · rw [if_neg (by simpa using h)]
      have h0 : n - vs.length = 0 := by omega
      simp [h0]
    · rw [if_pos (by simpa using h)]
      congr 2
      omega
  refine ⟨hpad, ?_, ?_⟩
  · intro n vs h
    rw [hpad]
    simp
    omega
  · intro subset idx vs rest
    rw [detectBins_cons]
    unfold scoreSlice
    cases hsd : stdevQ (padValues subset.length vs) with
    | error e => rfl
    | ok sd =>
        cases hmed : medianQ (padValues subset.length vs) with
        | error e => rfl
        | ok med =>
            by_cases h0 : sd = 0
            · cases hrest : detectBins subset d rest <;> simp [h0, hrest]
            · simp [h0]

/-- Witness for C5 at `n = 3`, `vs = [4]`. -/
theorem detectBins_pads_with_zeros_witness :
    padValues 3 [4] = [4] ++ List.replicate 2 0 ∧ (padValues 3 [4]).length = 3 :=
  ⟨(detectBins_pads_with_zeros 1).1 3 [4],
   (detectBins_pads_with_zeros 1).2.1 3 [4] (by decide)⟩

/-! ## C3: outlier detection is monotone in the threshold -/

/-- Every score reported by the scan loop strictly exceeds the threshold. -/
theorem scanScores_gt (subset : List String) (labelOf : String → String)
    (med sd d : ℚ) (pts : List (ℕ × ℚ)) (l : List (String × ℚ))
    (h : scanScores subset labelOf med sd d pts = .ok l) :
    ∀ p ∈ l, d < p.2 := by
  induction pts generalizing l with
  | nil =>
      unfold scanScores at h
      cases h
      simp
  | cons hd0 rest ih =>
      obtain ⟨i, v⟩ := hd0
      unfold scanScores at h
      by_cases hgt : d < |v - med| / sd
      · rw [if_pos hgt] at h
        cases hget : subset.get? i with
        | none => rw [hget] at h; simp at h
        | some sample =>
            rw [hget] at h
            cases hrest : scanScores subset labelOf med sd d rest with
            | error e => rw [hrest] at h; simp at h
            | ok tail =>
                rw [hrest] at h
                cases h
                intro p hp
                rcases List.mem_cons.mp hp with h1 | h2
                · rw [h1]
                  exact hgt
                · exact ih tail hrest p h2
      · rw [if_neg hgt] at h
        exact ih l h

/-- A lower threshold makes the scan loop report a superset (when both runs
succeed). -/
theorem scanScores_mono (subset : List String) (labelOf : String → String)
    (med sd : ℚ) (d1 d2 : ℚ) (hd : d1 ≤ d2) (pts : List (ℕ × ℚ))
    (l1 l2 : List (String × ℚ))
    (h1 : scanScores subset labelOf med sd d1 pts = .ok l1)
    (h2 : scanScores subset labelOf med sd d2 pts = .ok l2) :
    ∀ p ∈ l2, p ∈ l1 := by
  induction pts generalizing l1 l2 with
  | nil =>
      unfold scanScores at h1 h2
      cases h1
      cases h2
      simp
  | cons hd0 rest ih =>
      obtain ⟨i, v⟩ := hd0
      unfold scanScores at h1 h2
      by_cases hgt2 : d2 < |v - med| / sd
      · have hgt1 : d1 < |v - med| / sd := lt_of_le_of_lt hd hgt2
        rw [if_pos hgt2] at h2
        rw [if_pos hgt1] at h1
        cases hget : subset.get? i with
        | none => rw [hget] at h2; simp at h2
        | some sample =>
            rw [hget] at h1 h2
            cases hr1 : scanScores subset labelOf med sd d1 rest with
            | error e => rw [hr1] at h1; simp at h1
            | ok t1 =>
                cases hr2 : scanScores subset labelOf med sd d2 rest with
                | error e => rw [hr2] at h2; simp at h2
                | ok t2 =>
                    rw [hr1] at h1
                    rw [hr2] at h2
                    cases h1
                    cases h2
                    intro p hp
                    rcases List.mem_cons.mp hp with hp1 | hp2
                    · rw [hp1]
                      exact List.mem_cons_self _ _
                    · exact List.mem_cons_of_mem _ (ih t1 t2 hr1 hr2 p hp2)
      · rw [if_neg hgt2] at h2
        by_cases hgt1 : d1 < |v - med| / sd
        · rw [if_pos hgt1] at h1
          cases hget : subset.get? i with
          | none => rw [hget] at h1; simp at h1
          | some sample =>
              rw [hget] at h1
              cases hr1 : scanScores subset labelOf med sd d1 rest with
              | error e => rw [hr1] at h1; simp at h1
              | ok t1 =>
                  rw [hr1] at h1
                  cases h1
                  intro p hp
                  exact List.mem_cons_of_mem _ (ih t1 l2 hr1 h2 p hp)
        · rw [if_neg hgt1] at h1
          exact ih l1 l2 h1 h2

/-- Scores reported by `scoreSlice` strictly exceed the threshold. -/
theorem scoreSlice_gt (subset : List String) (labelOf : String → String)
    (d : ℚ) (values : List ℚ) (l : List (String × ℚ))
    (h : scoreSlice subset labelOf d values = .ok l) :
    ∀ p ∈ l, d < p.2 := by
  unfold scoreSlice at h
  cases hsd : stdevQ values with
  | error e => rw [hsd] at h; simp at h
  | ok sd =>
      simp only [hsd] at h
      cases hmed : medianQ values with
      | error e => rw [hmed] at h; simp at h
      | ok med =>
          simp only [hmed] at h
          by_cases h0 : sd = 0
          · rw [if_pos h0] at h
            cases h
            simp
          · rw [if_neg h0] at h
            exact scanScores_gt subset labelOf med sd d values.enum l h

/-- `scoreSlice` is monotone in the threshold (when both runs succeed). -/
theorem scoreSlice_mono (subset : List String) (labelOf : String → String)
    (d1 d2 : ℚ) (hd : d1 ≤ d2) (values : List ℚ) (l1 l2 : List (String × ℚ))
    (h1 : scoreSlice subset labelOf d1 values = .ok l1)
    (h2 : scoreSlice subset labelOf d2 values = .ok l2) :
    ∀ p ∈ l2, p ∈ l1 := by
  unfold scoreSlice at h1 h2
  cases hsd : stdevQ values with
  | error e => rw [hsd] at h1; simp at h1
  | ok sd =>
      simp only [hsd] at h1 h2
      cases hmed : medianQ values with
      | error e => rw [hmed] at h1; simp at h1
      | ok med =>
          simp only [hmed] at h1 h2
          by_cases h0 : sd = 0
          · rw [if_pos h0] at h1 h2
            cases h1
            cases h2
            simp
          · rw [if_neg h0] at h1 h2
            exact scanScores_mono subset labelOf med sd d1 d2 hd values.enum l1 l2 h1 h2

/-- Scores reported by the per-bin loop strictly exceed the threshold. -/
theorem detectBins_gt (subset : List String) (d : ℚ)
    (bins : List (JIdx × List ℚ)) (l : List (String × ℚ))
    (h : detectBins subset d bins = .ok l) :
    ∀ p ∈ l, d < p.2 := by
  induction bins generalizing l with
  | nil =>
      unfold detectBins at h
      cases h
      simp
  | cons b rest ih =>
      obtain ⟨idx, vs⟩ := b
      rw [detectBins_cons] at h
      cases hsd : stdevQ (padValues subset.length vs) with
      | error e => rw [hsd] at h; simp at h
      | ok sd =>
          simp only [hsd] at h
          cases hmed : medianQ (padValues subset.length vs) with
          | error e => rw [hmed] at h; simp at h
          | ok med =>
              simp only [hmed] at h
              by_cases h0 : sd = 0
              · rw [if_pos h0] at h
                exact ih l h
              · rw [if_neg h0] at h
                cases hscan : scanScores subset (fun x => x ++ ":" ++ pyStr idx)
                    med sd d (padValues subset.length vs).enum with
                | error e => rw [hscan] at h; simp at h
                | ok this =>
                    rw [hscan] at h
                    cases hrest : detectBins subset d rest with
                    | error e => rw [hrest] at h; simp at h
                    | ok restOut =>
                        rw [hrest] at h
                        cases h
                        intro p hp
                        rcases List.mem_append.mp hp with hp1 | hp2
                        · exact scanScores_gt _ _ _ _ _ _ _ hscan p hp1
                        · exact ih restOut hrest p hp2

/-- The per-bin loop is monotone in the threshold (when both runs succeed). -/
theorem detectBins_mono (subset : List String) (d1 d2 : ℚ) (hd : d1 ≤ d2)
    (bins : List (JIdx × List ℚ)) (l1 l2 : List (String × ℚ))
    (h1 : detectBins subset d1 bins = .ok l1)
    (h2 : detectBins subset d2 bins = .ok l2) :
    ∀ p ∈ l2, p ∈ l1 := by
  induction bins generalizing l1 l2 with
  | nil =>
      unfold detectBins at h1 h2
      cases h1
      cases h2
      simp
  | cons b rest ih =>
      obtain ⟨idx, vs⟩ := b
      rw [detectBins_cons] at h1 h2
      cases hsd : stdevQ (padValues subset.length vs) with
      | error e => rw [hsd] at h1; simp at h1
      | ok sd =>
          simp only [hsd] at h1 h2
          cases hmed : medianQ (padValues subset.length vs) with
          | error e => rw [hmed] at h1; simp at h1
          | ok med =>
              simp only [hmed] at h1 h2
              by_cases h0 : sd = 0
              · rw [if_pos h0] at h1 h2
                exact ih l1 l2 h1 h2
              · rw [if_neg h0] at h1 h2
                cases hs1 : scanScores subset (fun x => x ++ ":" ++ pyStr idx)
                    med sd d1 (padValues subset.length vs).enum with
                | error e => rw [hs1] at h1; simp at h1
                | ok this1 =>
                    cases hs2 : scanScores subset (fun x => x ++ ":" ++ pyStr idx)
                        med sd d2 (padValues subset.length vs).enum with
                    | error e => rw [hs2] at h2; simp at h2
                    | ok this2 =>
                        rw [hs1] at h1
                        rw [hs2] at h2
                        cases hr1 : detectBins subset d1 rest with
                        | error e => rw [hr1] at h1; simp at h1
                        | ok rest1 =>
                            cases hr2 : detectBins subset d2 rest with
                            | error e => rw [hr2] at h2; simp at h2
                            | ok rest2 =>
                                rw [hr1] at h1
                                rw [hr2] at h2
                                cases h1
                                cases h2
                                intro p hp
                                rcases List.mem_append.mp hp with hp1 | hp2
                                · exact List.mem_append.mpr (Or.inl
                                    (scanScores_mono subset _ med sd d1 d2 hd _ this1 this2 hs1 hs2 p hp1))
                                · exact List.mem_append.mpr (Or.inr (ih rest1 rest2 hr1 hr2 p hp2))

/-- C3: for a fixed key and subset, whenever `t1 ≤ t2` every outlier
reported at threshold `t2` is also reported at threshold `t1`, and every
reported deviation score strictly exceeds the threshold of its own run
(so a score exactly equal to the threshold is excluded). -/
theorem detect_outliers_threshold_monotone (m : MultiQC) (key : String)
    (ss : List String) (t1 t2 : ℚ) (hd : t1 ≤ t2)
    (l1 l2 : List (String × ℚ))
    (h1 : detect_outliers m key t1 ss = .ok l1)
    (h2 : detect_outliers m key t2 ss = .ok l2) :
    (∀ p ∈ l2, p ∈ l1) ∧ (∀ p ∈ l2, t2 < p.2) := by
  simp only [detect_outliers] at h1 h2
  cases hc : compile_subset m (if ss.isEmpty then m.samples else ss) key with
  | error e =>
      rw [hc] at h1
      simp at h1
  | ok c =>
      rw [hc] at h1 h2
      cases c with
      | none => simp at h1
      | list values =>
          exact ⟨scoreSlice_mono _ _ t1 t2 hd values l1 l2 h1 h2,
                 scoreSlice_gt _ _ t2 values l2 h2⟩
      | dict values =>
          exact ⟨detectBins_mono _ t1 t2 hd values l1 l2 h1 h2,
                 detectBins_gt _ t2 values l2 h2⟩

/-- Witness for C3 on the concrete store `mW` at thresholds `1 ≤ 3/2`. -/
theorem detect_outliers_threshold_monotone_witness :
    ∃ l1 l2, detect_outliers mW "forward-f" 1 samplesW = .ok l1 ∧
      detect_outliers mW "forward-f" (3 / 2) samplesW = .ok l2 ∧
      (∀ p ∈ l2, p ∈ l1) ∧ (∀ p ∈ l2, (3 / 2 : ℚ) < p.2) := by
  have h1 : detect_outliers mW "forward-f" 1 samplesW = .ok [("C", 2)] := by
    norm_num +decide [detect_outliers, compile_subset, compileGo, compileStep, lookup2,
      alookup, mW, samplesW, scoreFlat, scoreSlice, stdevQ, sampleVariance, listMean,
      pySqrt, isqrt, isqrtGo, medianQ, sortQ, insertLe, scanScores, List.enum,
      List.enumFrom, pyFalsy, Rat.num_ofNat, Rat.den_ofNat]
  have h2 : detect_outliers mW "forward-f" (3 / 2) samplesW = .ok [("C", 2)] := by
    norm_num +decide [detect_outliers, compile_subset, compileGo, compileStep, lookup2,
      alookup, mW, samplesW, scoreFlat, scoreSlice, stdevQ, sampleVariance, listMean,
      pySqrt, isqrt, isqrtGo, medianQ, sortQ, insertLe, scanScores, List.enum,
      List.enumFrom, pyFalsy, Rat.num_ofNat, Rat.den_ofNat]
  exact ⟨_, _, h1, h2,
    detect_outliers_threshold_monotone mW "forward-f" samplesW 1 (3 / 2)
      (by norm_num) _ _ h1 h2⟩

/-! ## C6: the configured comparison statistic is never consulted -/

theorem mem_of_mem_enumFrom {α : Type} (xs : List α) :
    ∀ (n i : ℕ) (v : α), (i, v) ∈ List.enumFrom n xs → v ∈ xs := by
  induction xs with
  | nil =>
      intro n i v h
      simp [List.enumFrom] at h
  | cons x rest ih =>
      intro n i v h
      rcases List.mem_cons.mp h with h1 | h2
      · rw [Prod.mk.injEq] at h1
        exact List.mem_cons.mpr (Or.inl h1.2)
      · exact List.mem_cons.mpr (Or.inr (ih (n + 1) i v h2))

/-- Every score reported by the scan loop is the deviation of one of the
scanned values from the supplied median, divided by the supplied stdev. -/
theorem scanScores_mem_score (subset : List String) (labelOf : String → String)
    (med sd d : ℚ) (pts : List (ℕ × ℚ)) (l : List (String × ℚ))
    (h : scanScores subset labelOf med sd d pts = .ok l) :
    ∀ p ∈ l, ∃ i v, (i, v) ∈ pts ∧ p.2 = |v - med| / sd := by
  induction pts generalizing l with
  | nil =>
      unfold scanScores at h
      cases h
      simp
  | cons hd0 rest ih =>
      obtain ⟨i, v⟩ := hd0
      unfold scanScores at h
      by_cases hgt : d < |v - med| / sd
      · rw [if_pos hgt] at h
        cases hget : subset.get? i with
        | none => rw [hget] at h; simp at h
        | some sample =>
            rw [hget] at h
            cases hrest : scanScores subset labelOf med sd d rest with
            | error e => rw [hrest] at h; simp at h
            | ok tail =>
                rw [hrest] at h
                cases h
                intro p hp
                rcases List.mem_cons.mp hp with hp1 | hp2
                · exact ⟨i, v, List.mem_cons_self _ _, by rw [hp1]⟩
                · obtain ⟨j, w, hmem, hsc⟩ := ih tail hrest p hp2
                  exact ⟨j, w, List.mem_cons_of_mem _ hmem, hsc⟩
      · rw [if_neg hgt] at h
        intro p hp
        obtain ⟨j, w, hmem, hsc⟩ := ih l h p hp
        exact ⟨j, w, List.mem_cons_of_mem _ hmem, hsc⟩

/-- Inversion of a successful `MultiQC.__init__`. -/
theorem mkMultiQC_fields (raw : RawReport) (samples : List String)
    (fm : List (String × String)) (pt : String) (m : MultiQC)
    (h : mkMultiQC raw samples fm pt = .ok m) :
    ∃ comp data s0 inner,
      alookup OUTLIER_COMPARISION pt = some comp ∧
      extract_multiQC_data raw samples fm = .ok data ∧
      samples.head? = some s0 ∧ alookup data s0 = some inner ∧
      m = ⟨comp, samples, fm, data, inner.map (fun p => p.1),
           [], fm.map (fun p => p.2)⟩ := by
  unfold mkMultiQC at h
  cases h1 : alookup OUTLIER_COMPARISION pt with
  | none => rw [h1] at h; simp at h
  | some comp =>
      simp only [h1] at h
      cases h2 : extract_multiQC_data raw samples fm with
      | error e => rw [h2] at h; simp at h
      | ok data =>
          simp only [h2] at h
          cases h3 : samples.head? with
          | none => rw [h3] at h; simp at h
          | some s0 =>
              simp only [h3] at h
              cases h4 : alookup data s0 with
              | none => rw [h4] at h; simp at h
              | some inner =>
                  simp only [h4] at h
                  cases h
                  exact ⟨comp, data, s0, inner, rfl, rfl, rfl, h4, rfl⟩

/-- `compile_subset`'s per-sample step never reads the stored comparison
function. -/
theorem compileStep_comp_irrel (c1 c2 : List ℚ → Except String ℚ)
    (s : List String) (fm : List (String × String)) (data : DataMap)
    (keys : List String) (su : List ((String × String) × List ℚ))
    (fl : List String) (key : String) (c : Compiled) (sample : String) :
    compileStep ⟨c1, s, fm, data, keys, su, fl⟩ key c sample =
      compileStep ⟨c2, s, fm, data, keys, su, fl⟩ key c sample := rfl

theorem compileGo_comp_irrel (c1 c2 : List ℚ → Except String ℚ)
    (s : List String) (fm : List (String × String)) (data : DataMap)
    (keys : List String) (su : List ((String × String) × List ℚ))
    (fl : List String) (key : String) (ss : List String) (c : Compiled) :
    compileGo ⟨c1, s, fm, data, keys, su, fl⟩ key ss c =
      compileGo ⟨c2, s, fm, data, keys, su, fl⟩ key ss c := by
  induction ss generalizing c with
  | nil => rfl
  | cons x rest ih =>
      unfold compileGo
      rw [compileStep_comp_irrel c1 c2 s fm data keys su fl key c x]
      cases compileStep ⟨c2, s, fm, data, keys, su, fl⟩ key c x <;> simp [ih]

theorem compile_subset_comp_irrel (c1 c2 : List ℚ → Except String ℚ)
    (s : List String) (fm : List (String × String)) (data : DataMap)
    (keys : List String) (su : List ((String × String) × List ℚ))
    (fl : List String) (ss : List String) (key : String) :
    compile_subset ⟨c1, s, fm, data, keys, su, fl⟩ ss key =
      compile_subset ⟨c2, s, fm, data, keys, su, fl⟩ ss key := by
  unfold compile_subset
  simp only [compileGo_comp_irrel c1 c2 s fm data keys su fl key ss]

/-- `detect_outliers` never reads the stored comparison function. -/
theorem detect_outliers_comp_irrel (c1 c2 : List ℚ → Except String ℚ)
    (s : List String) (fm : List (String × String)) (data : DataMap)
    (keys : List String) (su : List ((String × String) × List ℚ))
    (fl : List String) (key : String) (d : ℚ) (ss : List String) :
    detect_outliers ⟨c1, s, fm, data, keys, su, fl⟩ key d ss =
      detect_outliers ⟨c2, s, fm, data, keys, su, fl⟩ key d ss := by
  unfold detect_outliers
  simp only [compile_subset_comp_irrel c1 c2 s fm data keys su fl]

/-- C6: building the store with the `"mean"` option produces exactly the
same outlier results as building it with `"median"`, and every reported
score on a scalar metric is `|value - median| / stdev` of the compiled
population - the configured comparison point is accepted but never used. -/
theorem detect_outliers_uses_median (raw : RawReport) (samples : List String)
    (fm : List (String × String)) (key : String) (d : ℚ) (ss : List String)
    (m1 m2 : MultiQC)
    (h1 : mkMultiQC raw samples fm "mean" = .ok m1)
    (h2 : mkMultiQC raw samples fm "median" = .ok m2) :
    detect_outliers m1 key d ss = detect_outliers m2 key d ss ∧
    (∀ (vs : List ℚ) (l : List (String × ℚ)),
      compile_subset m1 (if ss.isEmpty then m1.samples else ss) key = .ok (.list vs) →
      detect_outliers m1 key d ss = .ok l →
      ∀ p ∈ l, ∃ v ∈ vs, ∃ med sd, medianQ vs = .ok med ∧ stdevQ vs = .ok sd ∧
        p.2 = |v - med| / sd) := by
  constructor
  · obtain ⟨c1, data1, s1, i1, hc1, hd1, hs1, hi1, hm1⟩ :=
      mkMultiQC_fields raw samples fm "mean" m1 h1
    obtain ⟨c2, data2, s2, i2, hc2, hd2, hs2, hi2, hm2⟩ :=
      mkMultiQC_fields raw samples fm "median" m2 h2
    rw [hd1] at hd2
    have hdata : data1 = data2 := Except.ok.inj hd2
    rw [hs1] at hs2
    have hs : s1 = s2 := Option.some.inj hs2
    subst hdata
    subst hs
    rw [hi1] at hi2
    have hi : i1 = i2 := Option.some.inj hi2
    subst hi
    rw [hm1, hm2]
    exact detect_outliers_comp_irrel c1 c2 samples fm data1
      (i1.map (fun p => p.1)) [] (fm.map (fun p => p.2)) key d ss
  · intro vs l hc hdet p hp
    simp only [detect_outliers] at hdet
    rw [hc] at hdet
    have hdet' : scoreSlice (if ss.isEmpty then m1.samples else ss)
        (fun x => x) d vs = .ok l := hdet
    unfold scoreSlice at hdet'
    cases hsd : stdevQ vs with
    | error e => rw [hsd] at hdet'; simp at hdet'
    | ok sd =>
        simp only [hsd] at hdet'
        cases hmed : medianQ vs with
        | error e => rw [hmed] at hdet'; simp at hdet'
        | ok med =>
            simp only [hmed] at hdet'
            by_cases h0 : sd = 0
            · rw [if_pos h0] at hdet'
              cases hdet'
              exact absurd hp (List.not_mem_nil p)
            · rw [if_neg h0] at hdet'
              obtain ⟨i, v, hmem, hsc⟩ :=
                scanScores_mem_score _ _ med sd d vs.enum l hdet' p hp
              exact ⟨v, mem_of_mem_enumFrom vs 0 i v hmem, med, sd, rfl, rfl, hsc⟩

/-- The store `mkMultiQC rawW samplesW fmW "mean"` constructs. -/
def mWmean : MultiQC := { mW with outlier_comparision := meanQ }

theorem mkWmean_ok : mkMultiQC rawW samplesW fmW "mean" = Except.ok mWmean := by rfl

/-- Witness for C6 on the concrete report `rawW`. -/
theorem detect_outliers_uses_median_witness :
    detect_outliers mWmean "forward-f" 1 [] = detect_outliers mW "forward-f" 1 [] :=
  (detect_outliers_uses_median rawW samplesW fmW "forward-f" 1 [] mWmean mW
    mkWmean_ok mkW_ok).1

/-! ## C2: sample matching during general-stats extraction -/

theorem extractGSentry_nomatch (fm : List (String × String)) (samples : List String)
    (file_name : String) (fields : List (String × ℚ)) (dm : DataMap)
    (h : samples.filter (fun s => strIn s file_name) = []) :
    extractGSentry fm samples file_name fields dm =
      .error "IndexError: list index out of range" := by
  unfold extractGSentry
  rw [h]

theorem extractGSfile_nomatch (fm : List (String × String)) (samples : List String) :
    ∀ (fd : List (String × List (String × ℚ))) (dm : DataMap),
      (∃ p ∈ fd, samples.filter (fun s => strIn s p.1) = []) →
      ∃ e, extractGSfile fm samples fd dm = .error e := by
  intro fd
  induction fd with
  | nil =>
      rintro dm ⟨p, hp, -⟩
      exact absurd hp (List.not_mem_nil p)
  | cons q rest ih =>
      rintro dm ⟨p, hp, hmatch⟩
      obtain ⟨file_name, fields⟩ := q
      unfold extractGSfile
      rcases List.mem_cons.mp hp with hp1 | hp2
      · have hm : samples.filter (fun s => strIn s file_name) = [] := by
          rw [hp1] at hmatch
          exact hmatch
        refine ⟨"IndexError: list index out of range", ?_⟩
        rw [extractGSentry_nomatch fm samples file_name fields dm hm]
      · cases hstep : extractGSentry fm samples file_name fields dm with
        | error e => exact ⟨e, rfl⟩
        | ok dm' =>
            obtain ⟨e, he⟩ := ih dm' ⟨p, hp2, hmatch⟩
            exact ⟨e, he⟩

theorem extractGS_nomatch (fm : List (String × String)) (samples : List String) :
    ∀ (gs : List (List (String × List (String × ℚ)))) (dm : DataMap),
      (∃ fd ∈ gs, ∃ p ∈ fd, samples.filter (fun s => strIn s p.1) = []) →
      ∃ e, extractGS fm samples gs dm = .error e := by
  intro gs
  induction gs with
  | nil =>
      rintro dm ⟨fd, hfd, -⟩
      exact absurd hfd (List.not_mem_nil fd)
  | cons fd0 rest ih =>
      rintro dm ⟨fd, hfd, hbad⟩
      unfold extractGS
      rcases List.mem_cons.mp hfd with h1 | h2
      · obtain ⟨e, he⟩ := extractGSfile_nomatch fm samples fd0 dm (h1 ▸ hbad)
        refine ⟨e, ?_⟩
        rw [he]
      · cases hstep : extractGSfile fm samples fd0 dm with
        | error e => exact ⟨e, rfl⟩
        | ok dm' =>
            obtain ⟨e, he⟩ := ih dm' ⟨fd, h2, hbad⟩
            exact ⟨e, he⟩

/-- C2 (amended): during general-stats extraction a file entry matching
zero configured sample ids is fatal (the `[0]` indexing raises, so no
DataStore is built), but a file entry matching several configured sample
ids is NOT an error: the first matching sample in configured order is
silently chosen, as the concrete report `rawMulti` (file `AB-R1` matched by
both `AB` and `A`, data recorded under `AB`) shows. -/
theorem general_stats_sample_matching (raw : RawReport) (samples : List String)
    (fm : List (String × String)) :
    ((∃ fd ∈ raw.report_general_stats_data, ∃ p ∈ fd,
        samples.filter (fun s => strIn s p.1) = []) →
      ∃ e, extract_multiQC_data raw samples fm = .error e) ∧
    (List.filter (fun s => strIn s "AB-R1") ["AB", "A"] = ["AB", "A"] ∧
      ∃ m, mkMultiQC rawMulti ["AB", "A"] fmW "median" = .ok m ∧
        lookup2 m.data "AB" "forward-f" = some (.one ⟨"forward-f", "f", 1⟩) ∧
        lookup2 m.data "A" "forward-f" = some (.one ⟨"forward-f", "f", 2⟩)) := by
  constructor
  · intro hbad
    obtain ⟨e, he⟩ := extractGS_nomatch fm samples raw.report_general_stats_data [] hbad
    refine ⟨e, ?_⟩
    unfold extract_multiQC_data
    rw [he]
  · exact ⟨by decide, ⟨_, rfl, rfl, rfl⟩⟩

/-- C2 counterexample: the file name `AB-R1` is matched by two configured
sample ids, yet construction succeeds - multiple matches are not fatal. -/
theorem general_stats_multimatch_counterexample :
    2 ≤ (List.filter (fun s => strIn s "AB-R1") ["AB", "A"]).length ∧
    ∃ m, mkMultiQC rawMulti ["AB", "A"] fmW "median" = .ok m :=
  ⟨by decide, ⟨_, rfl⟩⟩

/-- Witness for C2's amended theorem: the report `rawNoMatch` has a file
entry (`Z-R1`) containing no configured sample id, and extraction fails. -/
theorem general_stats_sample_matching_witness :
    ∃ e, extract_multiQC_data rawNoMatch ["A"] fmW = .error e :=
  (general_stats_sample_matching rawNoMatch ["A"] fmW).1
    ⟨[("Z-R1", [("f", 1)])], List.mem_cons_self _ _,
     ("Z-R1", [("f", 1)]), List.mem_cons_self _ _, by decide⟩

/-! ## C8: the key schema is captured from the first sample only -/

/-- C8 (amended): the discovered ordered key list of a successfully
constructed store is exactly the key list of the FIRST configured sample's
mapping; uniformity across the other samples is not guaranteed. -/
theorem sample_wise_keys_from_first_sample (raw : RawReport) (samples : List String)
    (fm : List (String × String)) (pt : String) (m : MultiQC)
    (h : mkMultiQC raw samples fm pt = .ok m) :
    ∃ s0 inner, samples.head? = some s0 ∧ alookup m.data s0 = some inner ∧
      m.sample_wise_data_keys = inner.map (fun p => p.1) := by
  obtain ⟨comp, data, s0, inner, hc, hd, hs, hi, hm⟩ :=
    mkMultiQC_fields raw samples fm pt m h
  subst hm
  exact ⟨s0, inner, hs, hi, rfl⟩

/-- Witness for C8's amended theorem on the concrete report `rawSkew`. -/
theorem sample_wise_keys_from_first_sample_witness :
    ∃ m s0 inner, mkMultiQC rawSkew ["A", "B"] fmW "median" = .ok m ∧
      (["A", "B"] : List String).head? = some s0 ∧
      alookup m.data s0 = some inner ∧
      m.sample_wise_data_keys = inner.map (fun p => p.1) := by
  obtain ⟨m, hm⟩ : ∃ m, mkMultiQC rawSkew ["A", "B"] fmW "median" = .ok m := ⟨_, rfl⟩
  obtain ⟨s0, inner, h1, h2, h3⟩ :=
    sample_wise_keys_from_first_sample rawSkew ["A", "B"] fmW "median" m hm
  exact ⟨m, s0, inner, hm, h1, h2, h3⟩

/-- C8 counterexample: `rawSkew` constructs successfully although sample
`B` carries the key `forward-g` that is absent from the discovered key
list (captured from sample `A`): the uniform-schema invariant fails. -/
theorem uniform_schema_counterexample :
    ∃ m, mkMultiQC rawSkew ["A", "B"] fmW "median" = .ok m ∧
      lookup2 m.data "B" "forward-g" = some (.one ⟨"forward-g", "g", 2⟩) ∧
      ¬ "forward-g" ∈ m.sample_wise_data_keys := by
  refine ⟨_, rfl, rfl, by decide⟩

/-! ## C9: types of xy-line bin labels and values keys -/

theorem alookup_dictInsert {α β : Type} [DecidableEq α] (k : α) (v : β)
    (l : List (α × β)) (k' : α) :
    alookup (dictInsert k v l) k' = if k' = k then some v else alookup l k' := by
  induction l with
  | nil =>
      simp only [dictInsert, alookup]
      by_cases h : k' = k
      · rw [if_pos h.symm, if_pos h]
      · rw [if_neg (fun hh => h hh.symm), if_neg h]
  | cons p rest ih =>
      simp only [dictInsert]
      by_cases hp : p.1 = k
      · rw [if_pos hp]
        simp only [alookup]
        by_cases hk : k' = k
        · rw [if_pos (hp.trans hk.symm), if_pos hk]
        · rw [if_neg (fun hh => hk (hh.symm.trans hp)), if_neg hk,
              if_neg (fun hh => hk (hh.symm.trans hp))]
      · rw [if_neg hp]
        simp only [alookup]
        rw [ih]
        by_cases hpk : p.1 = k'
        · have hk : ¬(k' = k) := fun hh => hp (hpk.trans hh)
          rw [if_pos hpk, if_neg hk, if_pos hpk]
        · by_cases hk : k' = k
          · rw [if_neg hpk, if_pos hk, if_pos hk]
          · rw [if_neg hpk, if_neg hk, if_neg hk, if_neg hpk]

theorem lookup2_dictInsert2 (sample key : String) (v : MetricData) (dm : DataMap)
    (s' k' : String) :
    lookup2 (dictInsert2 sample key v dm) s' k' =
      if s' = sample ∧ k' = key then some v else lookup2 dm s' k' := by
  induction dm with
  | nil =>
      by_cases hs : s' = sample
      · subst hs
        simp [dictInsert2, lookup2, alookup]
        by_cases hk : k' = key
        · simp [hk]
        · have h' : ¬(key = k') := fun hh => hk hh.symm
          simp [hk, h']
      · have h' : ¬(sample = s') := fun hh => hs hh.symm
        simp [dictInsert2, lookup2, alookup, hs, h']
  | cons p rest ih =>
      by_cases hp : p.1 = sample
      · by_cases hs : p.1 = s'
        · have hss : s' = sample := by rw [← hs, hp]
          simp [dictInsert2, lookup2, alookup, hp, hs, hss, alookup_dictInsert]
        · have hss : ¬(s' = sample) := by
            rw [← hp]
            exact fun hh => hs hh.symm
          have h2 : ¬(sample = s') := fun hh => hs (hp.trans hh)
          simp [dictInsert2, lookup2, alookup, hp, hs, hss, h2]
      · by_cases hs : p.1 = s'
        · have hss : ¬(s' = sample) := by
            rw [← hs]
            exact hp
          simp [dictInsert2, lookup2, alookup, hp, hs, hss]
        · simp only [dictInsert2, if_neg hp]
          simp only [lookup2, alookup, if_neg hs]
          exact ih

/-- All keys inserted by `dictInsert` satisfy a predicate preserved from the
inserted key and the previous keys. -/
theorem dictInsert_keyPred {α β : Type} [DecidableEq α] (P : α → Prop) (k : α) (v : β)
    (l : List (α × β)) (hk : P k) (hl : ∀ q ∈ l, P q.1) :
    ∀ p ∈ dictInsert k v l, P p.1 := by
  induction l with
  | nil =>
      intro p hp
      rcases List.mem_singleton.mp hp with h
      rw [h]
      exact hk
  | cons q rest ih =>
      intro p hp
      unfold dictInsert at hp
      by_cases h : q.1 = k
      · rw [if_pos h] at hp
        rcases List.mem_cons.mp hp with h1 | h2
        · rw [h1]
          exact hl q (List.mem_cons_self _ _)
        · exact hl p (List.mem_cons_of_mem _ h2)
      · rw [if_neg h] at hp
        rcases List.mem_cons.mp hp with h1 | h2
        · rw [h1]
          exact hl q (List.mem_cons_self _ _)
        · exact ih (fun r hr => hl r (List.mem_cons_of_mem _ hr)) p h2

theorem foldl_dictInsert_keyPred {α β : Type} [DecidableEq α] (P : α → Prop) :
    ∀ (l : List (α × β)) (acc : List (α × β)),
      (∀ q ∈ l, P q.1) → (∀ q ∈ acc, P q.1) →
      ∀ p ∈ l.foldl (fun acc q => dictInsert q.1 q.2 acc) acc, P p.1 := by
  intro l
  induction l with
  | nil =>
      intro acc _ hacc p hp
      exact hacc p hp
  | cons q rest ih =>
      intro acc hl hacc p hp
      exact ih (dictInsert q.1 q.2 acc)
        (fun r hr => hl r (List.mem_cons_of_mem _ hr))
        (dictInsert_keyPred P q.1 q.2 acc (hl q (List.mem_cons_self _ _)) hacc) p hp

/-- Keys produced by the categorical populate loop come from the zipped
pairs. -/
theorem catPairs_keys (l : List (JIdx × XYPoint)) (vps : List (JIdx × ℚ))
    (h : catPairs l = .ok vps) :
    ∀ p ∈ vps, ∃ q ∈ l, p.1 = q.1 := by
  induction l generalizing vps with
  | nil =>
      unfold catPairs at h
      cases h
      simp
  | cons q rest ih =>
      unfold catPairs at h
      cases hf : floatOf q.2 with
      | error e => rw [hf] at h; simp at h
      | ok v =>
          simp only [hf] at h
          cases hr : catPairs rest with
          | error e => rw [hr] at h; simp at h
          | ok restP =>
              simp only [hr] at h
              cases h
              intro p hp
              rcases List.mem_cons.mp hp with h1 | h2
              · exact ⟨q, List.mem_cons_self _ _, by rw [h1]⟩
              · obtain ⟨q', hq', hk⟩ := ih restP hr p h2
                exact ⟨q', List.mem_cons_of_mem _ hq', hk⟩

/-- Every indexed metric in the DataStore has purely string bin labels and
values keys. -/
def StrIndexed (dm : DataMap) : Prop :=
  ∀ (sample key : String) (d : IndexedValuesData),
    lookup2 dm sample key = some (.indexed d) →
    (∀ b ∈ d.bins, ∃ s, b = JIdx.str s) ∧ (∀ p ∈ d.values, ∃ s, p.1 = JIdx.str s)

theorem extractXYEntry_cat_strIndexed (fm : List (String × String))
    (samples : List String) (plot_name data_label ylab xlab : String)
    (bins : List JIdx) (hbins : ∀ b ∈ bins, ∃ s, b = JIdx.str s)
    (entry : XYEntry) (dm dm' : DataMap) (hdm : StrIndexed dm)
    (h : extractXYEntry fm samples plot_name data_label ylab xlab (some bins) entry dm
      = .ok dm') :
    StrIndexed dm' := by
  unfold extractXYEntry at h
  cases hfil : samples.filter (fun s => strIn s entry.name) with
  | nil => rw [hfil] at h; simp at h
  | cons sample tail =>
      cases tail with
      | cons t ts => rw [hfil] at h; simp at h
      | nil =>
          simp only [hfil] at h
          cases hlbl : label_file fm entry.name with
          | error e => rw [hlbl] at h; simp at h
          | ok sample_file =>
              simp only [hlbl] at h
              cases hcp : catPairs (bins.zip entry.data) with
              | error e => rw [hcp] at h; simp at h
              | ok valuePairs =>
                  simp only [hcp] at h
                  cases h
                  intro s' k' d hl
                  rw [lookup2_dictInsert2] at hl
                  by_cases hc : s' = sample ∧ k' = sample_file ++ "-" ++ plot_name ++ data_label
                  · rw [if_pos hc] at hl
                    have hd : d = ⟨sample_file ++ "-" ++ plot_name ++ data_label,
                        ylab, bins, xlab,
                        valuePairs.foldl (fun acc p => dictInsert p.1 p.2 acc) []⟩ := by
                      have := Option.some.inj hl
                      cases this
                      rfl
                    subst hd
                    constructor
                    · exact hbins
                    · intro p hp
                      have hkeys : ∀ q ∈ valuePairs, ∃ s, q.1 = JIdx.str s := by
                        intro q hq
                        obtain ⟨q', hq', hk⟩ := catPairs_keys _ _ hcp q hq
                        obtain ⟨hb, -⟩ := List.of_mem_zip hq'
                        obtain ⟨s, hs⟩ := hbins q'.1 hb
                        exact ⟨s, by rw [hk, hs]⟩
                      exact foldl_dictInsert_keyPred (fun k => ∃ s, k = JIdx.str s)
                        valuePairs [] hkeys (by simp) p hp
                  · rw [if_neg hc] at hl
                    exact hdm s' k' d hl

theorem extractXYDataset_cat_strIndexed (fm : List (String × String))
    (samples : List String) (plot_name data_label ylab xlab : String)
    (bins : List JIdx) (hbins : ∀ b ∈ bins, ∃ s, b = JIdx.str s) :
    ∀ (es : List XYEntry) (dm dm' : DataMap), StrIndexed dm →
      extractXYDataset fm samples plot_name data_label ylab xlab (some bins) es dm
        = .ok dm' →
      StrIndexed dm' := by
  intro es
  induction es with
  | nil =>
      intro dm dm' hdm h
      unfold extractXYDataset at h
      cases h
      exact hdm
  | cons e rest ih =>
      intro dm dm' hdm h
      unfold extractXYDataset at h
      cases hstep : extractXYEntry fm samples plot_name data_label ylab xlab
          (some bins) e dm with
      | error e' => rw [hstep] at h; simp at h
      | ok dm1 =>
          simp only [hstep] at h
          exact ih dm1 dm'
            (extractXYEntry_cat_strIndexed fm samples plot_name data_label ylab xlab
              bins hbins e dm dm1 hdm hstep) h

theorem extractXYGo_cat_strIndexed (fm : List (String × String))
    (samples : List String) (plot_name : String) (cfg : XYConfig) (multiple : Bool)
    (bins : List JIdx) (hbins : ∀ b ∈ bins, ∃ s, b = JIdx.str s) :
    ∀ (i : ℕ) (dss : List (List XYEntry)) (dm dm' : DataMap), StrIndexed dm →
      extractXYGo fm samples plot_name cfg multiple (some bins) i dss dm = .ok dm' →
      StrIndexed dm' := by
  intro i dss
  induction dss generalizing i with
  | nil =>
      intro dm dm' hdm h
      unfold extractXYGo at h
      cases h
      exact hdm
  | cons ds rest ih =>
      intro dm dm' hdm h
      unfold extractXYGo at h
      cases hlbl : (if multiple then
          match cfg.data_labels.get? i with
          | some n => Except.ok ("-" ++ n)
          | Option.none => Except.error "IndexError: data_labels"
        else Except.ok "") with
      | error e => rw [hlbl] at h; simp at h
      | ok data_label =>
          simp only [hlbl] at h
          cases hstep : extractXYDataset fm samples plot_name data_label cfg.ylab
              cfg.xlab (some bins) ds dm with
          | error e => rw [hstep] at h; simp at h
          | ok dm1 =>
              simp only [hstep] at h
              exact ih (i + 1) dm1 dm'
                (extractXYDataset_cat_strIndexed fm samples plot_name data_label
                  cfg.ylab cfg.xlab bins hbins ds dm dm1 hdm hstep) h

/-- C9 (amended): for a CATEGORICAL xy-line plot every bin label and every
values key produced is a string (the categories are stringified before
zipping); for a NON-categorical plot the raw `[index, value]` indices are
used as-is as bin labels and values keys - they stay numbers when the
report's indices are numbers - as the entry-level characterization below
states. -/
theorem xy_line_bin_label_types (fm : List (String × String))
    (samples : List String) (plot_name : String)
    (dsets : List (List XYEntry)) (cfg : XYConfig) (cats : List JIdx)
    (hcat : cfg.categories = some cats) (dm dm' : DataMap)
    (hdm : StrIndexed dm)
    (h : extract_from_xy_line_graph fm samples dsets cfg plot_name dm = .ok dm') :
    StrIndexed dm' ∧
    (∀ (data_label ylab xlab : String) (entry : XYEntry) (dm0 dm1 : DataMap)
        (sample : String) (pts : List (JIdx × ℚ)),
      samples.filter (fun s => strIn s entry.name) = [sample] →
      pairList entry.data = .ok pts →
      extractXYEntry fm samples plot_name data_label ylab xlab Option.none entry dm0
        = .ok dm1 →
      ∃ sample_file, label_file fm entry.name = .ok sample_file ∧
        lookup2 dm1 sample (sample_file ++ "-" ++ plot_name ++ data_label) =
          some (.indexed ⟨sample_file ++ "-" ++ plot_name ++ data_label, ylab,
            pts.map (fun p => p.1), xlab,
            pts.foldl (fun acc p => dictInsert p.1 p.2 acc) []⟩)) := by
  constructor
  · unfold extract_from_xy_line_graph at h
    rw [hcat] at h
    exact extractXYGo_cat_strIndexed fm samples plot_name cfg
      (decide (1 < dsets.length)) (cats.map (fun c => JIdx.str (pyStr c)))
      (by
        intro b hb
        obtain ⟨c, -, hc⟩ := List.mem_map.mp hb
        exact ⟨pyStr c, hc.symm⟩)
      0 dsets dm dm' hdm h
  · intro data_label ylab xlab entry dm0 dm1 sample pts hfil hpts hentry
    unfold extractXYEntry at hentry
    simp only [hfil] at hentry
    cases hlbl : label_file fm entry.name with
    | error e => rw [hlbl] at hentry; simp at hentry
    | ok sample_file =>
        simp only [hlbl] at hentry
        simp only [hpts] at hentry
        cases hentry
        refine ⟨sample_file, rfl, ?_⟩
        rw [lookup2_dictInsert2]
        simp

/-- Witness for C9's amended theorem: the categorical plot of `rawXYCat`
extracts into a store whose indexed entries carry only string bins/keys. -/
theorem xy_line_bin_label_types_witness :
    ∃ dm', extract_from_xy_line_graph fmW ["A"]
        [[⟨"A-R1", [XYPoint.val 3, XYPoint.val 7]⟩]]
        ⟨"Count", "Phred", some [JIdx.str "b1", JIdx.str "b2"], []⟩ "p" [] = .ok dm' ∧
      StrIndexed dm' := by
  obtain ⟨dm', hdm'⟩ : ∃ dm', extract_from_xy_line_graph fmW ["A"]
      [[⟨"A-R1", [XYPoint.val 3, XYPoint.val 7]⟩]]
      ⟨"Count", "Phred", some [JIdx.str "b1", JIdx.str "b2"], []⟩ "p" [] = .ok dm' :=
    ⟨_, rfl⟩
  refine ⟨dm', hdm', ?_⟩
  exact (xy_line_bin_label_types fmW ["A"] "p"
    [[⟨"A-R1", [XYPoint.val 3, XYPoint.val 7]⟩]]
    ⟨"Count", "Phred", some [JIdx.str "b1", JIdx.str "b2"], []⟩
    [JIdx.str "b1", JIdx.str "b2"] rfl [] dm'
    (by intro s k d h; simp [lookup2, alookup] at h) hdm').1

/-- C9 counterexample: a non-categorical xy-line plot with the raw
`[index, value]` pair `[40.0, 4071.0]` stores the NUMBER `40` as bin label
and values key - not the string `"40.0"` - matching the repository's own
test `values[40.0] == 4071.0`. -/
theorem xy_bins_string_counterexample :
    ∃ m d, mkMultiQC rawXYNum ["A"] fmW "median" = .ok m ∧
      lookup2 m.data "A" "forward-p" = some (.indexed d) ∧
      d.bins = [JIdx.num 40] ∧ d.values = [(JIdx.num 40, 4071)] ∧
      ∀ s : String, JIdx.num 40 ≠ JIdx.str s := by
  refine ⟨_, _, rfl, rfl, rfl, rfl, ?_⟩
  intro s h
  exact JIdx.noConfusion h
